import Mathlib

/-!
Shallow embedding of `src/page_sites_demographics.py` (function
`page_sites_demographics`): the filter pipeline over the clinical table and
the aggregations feeding each view.

Modelling conventions, chosen to match pandas semantics:
* a table is a `List Row` in original row order;
* a missing value (pandas `NaN`) is `none`; comparisons and `isin` against a
  missing value are false, and `dropna`-style steps are `filterMap`;
* `Series.value_counts` counts the non-missing values, keys in first-seen
  order, then sorts by count descending; the sort is modelled as stable
  (equal counts keep their previous relative order);
* `groupby([...]).size()` drops rows with a missing grouping key and emits
  the distinct keys in ascending lexicographic order;
* `sort_values(ascending=False)` is likewise modelled as a stable
  descending sort;
* ages are rationals (`ℚ`), which supports the exact comparisons the code
  performs without floating point.
-/

/-- One row of the clinical table, with exactly the columns the page reads.
`none` stands for a missing (NaN) cell. -/
structure Row where
  race : Option String
  ethnicity : Option String
  gender : Option String
  age : Option ℚ
  site : Option String
  stage : Option String
deriving DecidableEq, Repr

/-- The sidebar filter state: the three multiselect values and the label of
the selected age-group option (the code dispatches on substrings of the
label, so we keep it as a string). -/
structure Criteria where
  races : List String
  ethnicities : List String
  genders : List String
  ageGroup : String
deriving DecidableEq, Repr

/-- Python's `needle in hay` substring test. -/
def containsSubstr (hay needle : String) : Bool :=
  decide (needle.toList <:+: hay.toList)

/-- `series.isin(sel)` on one cell: a missing cell is in no selection. -/
def optMem (v : Option String) (sel : List String) : Bool :=
  match v with
  | none => false
  | some x => sel.contains x

/-- `if selected_races: filtered_df = filtered_df[filtered_df["race"].isin(selected_races)]`. -/
def filterByRace (sel : List String) (df : List Row) : List Row :=
  if sel = [] then df else df.filter (fun r => optMem r.race sel)

/-- The ethnicity step of the pipeline, same shape as the race step. -/
def filterByEthnicity (sel : List String) (df : List Row) : List Row :=
  if sel = [] then df else df.filter (fun r => optMem r.ethnicity sel)

/-- The gender step of the pipeline, same shape as the race step. -/
def filterByGender (sel : List String) (df : List Row) : List Row :=
  if sel = [] then df else df.filter (fun r => optMem r.gender sel)

/-- `filtered_df["age"] <= 45` on one cell (false on NaN). -/
def youngAge (a : Option ℚ) : Bool :=
  match a with
  | some x => decide (x ≤ 45)
  | none => false

/-- `(filtered_df["age"] > 45) & (filtered_df["age"] <= 65)` on one cell. -/
def adultAge (a : Option ℚ) : Bool :=
  match a with
  | some x => decide (45 < x) && decide (x ≤ 65)
  | none => false

/-- `filtered_df["age"] > 65` on one cell. -/
def seniorAge (a : Option ℚ) : Bool :=
  match a with
  | some x => decide (65 < x)
  | none => false

/-- The age-group step: the code tests `"Young" in age_group`, then
`"Adult"`, then `"Senior"`, and otherwise (the "All Ages" label) leaves the
table unchanged. -/
def filterByAge (label : String) (df : List Row) : List Row :=
  if containsSubstr label "Young" then df.filter (fun r => youngAge r.age)
  else if containsSubstr label "Adult" then df.filter (fun r => adultAge r.age)
  else if containsSubstr label "Senior" then df.filter (fun r => seniorAge r.age)
  else df

/-- The whole filter pipeline, in the order the code applies the steps. -/
def applyFilters (df : List Row) (c : Criteria) : List Row :=
  filterByAge c.ageGroup
    (filterByGender c.genders
      (filterByEthnicity c.ethnicities
        (filterByRace c.races df)))

/-- Distinct values of a list in first-seen order. -/
def dedupFirst {α : Type} [DecidableEq α] : List α → List α
  | [] => []
  | x :: xs => x :: (dedupFirst xs).filter (fun y => decide (y ≠ x))

/-- Insert a counted key into a count-descending list, after every entry
with a strictly larger count and before every entry with a smaller-or-equal
count, so that sorting with it is stable. -/
def insertCountDesc {α : Type} (x : α × Nat) : List (α × Nat) → List (α × Nat)
  | [] => [x]
  | y :: ys => if y.2 ≤ x.2 then x :: y :: ys else y :: insertCountDesc x ys

/-- Stable insertion sort, count descending. -/
def sortCountDesc {α : Type} : List (α × Nat) → List (α × Nat)
  | [] => []
  | x :: xs => insertCountDesc x (sortCountDesc xs)

/-- `Series.value_counts()`: drop the missing cells, count each distinct
value, and sort the counts descending (stably, keys first-seen). -/
def valueCounts (xs : List (Option String)) : List (String × Nat) :=
  let vals := xs.filterMap id
  sortCountDesc ((dedupFirst vals).map (fun k => (k, vals.count k)))

/-- Lines 130-132: `filtered_df["site"].value_counts()`, drop the
`"Unknown"` row, keep the first 10. -/
def topSites (df : List Row) : List (String × Nat) :=
  ((valueCounts (df.map Row.site)).filter (fun p => decide (p.1 ≠ "Unknown"))).take 10

/-- The grouping keys of `groupby(["race", "ethnicity"])`: rows where either
key is missing are dropped. -/
def raceEthPairs (df : List Row) : List (String × String) :=
  df.filterMap (fun r =>
    match r.race, r.ethnicity with
    | some a, some b => some (a, b)
    | _, _ => none)

/-- Lexicographic comparison of character lists: equal heads compare the
tails, distinct heads compare by code point. -/
def charListLt : List Char → List Char → Bool
  | _, [] => false
  | [], _ :: _ => true
  | a :: as, b :: bs => if a = b then charListLt as bs else decide (a < b)

/-- Lexicographic string comparison (the order pandas uses when sorting
string grouping keys). -/
def strLt (a b : String) : Bool :=
  charListLt a.data b.data

/-- Ascending lexicographic order on (race, ethnicity) keys. -/
def pairLt (a b : String × String) : Bool :=
  strLt a.1 b.1 || (a.1 == b.1 && strLt a.2 b.2)

/-- Insert a key into a lexicographically ascending list. -/
def insertPairAsc (x : String × String) :
    List (String × String) → List (String × String)
  | [] => [x]
  | y :: ys => if pairLt x y then x :: y :: ys else y :: insertPairAsc x ys

/-- Insertion sort of grouping keys, lexicographically ascending, as
`groupby` emits them. -/
def sortPairsAsc : List (String × String) → List (String × String)
  | [] => []
  | x :: xs => insertPairAsc x (sortPairsAsc xs)

/-- Lines 94-95: `groupby(["race", "ethnicity"]).size()` (keys ascending),
then `sort_values("Count", ascending=False)` (stable model), then
`head(10)`. -/
def raceEthnicityBreakdown (df : List Row) : List ((String × String) × Nat) :=
  let vals := raceEthPairs df
  let keys := sortPairsAsc (dedupFirst vals)
  (sortCountDesc (keys.map (fun k => (k, vals.count k)))).take 10

/-- Line 108: `filtered_df[["age"]].dropna()`, the histogram's input. -/
def ageValues (df : List Row) : List ℚ :=
  df.filterMap Row.age

/-- Lines 151-154: restrict to the selected site unless it is `"All"`.
A missing site never equals the selected string. -/
def siteRestrict (df : List Row) (selectedSite : String) : List Row :=
  if selectedSite ≠ "All" then df.filter (fun r => r.site == some selectedSite)
  else df

/-- Lines 156-159: `site_filtered["stage"].value_counts()` with the
`"Unknown"` row dropped afterwards. -/
def stageBreakdown (df : List Row) (selectedSite : String) : List (String × Nat) :=
  (valueCounts ((siteRestrict df selectedSite).map Row.stage)).filter
    (fun p => decide (p.1 ≠ "Unknown"))

/-- The four summary scalars of lines 179-194.  `meanAge` is the exact mean
before the one-decimal display formatting, `none` when every age is
missing (pandas yields NaN there). -/
structure Summary where
  total : Nat
  uniqueSites : Nat
  uniqueStages : Nat
  meanAge : Option ℚ
deriving DecidableEq, Repr

/-- Lines 179-194: `len`, `site.nunique()` (drops NaN only),
`df[df["stage"] != "Unknown"]["stage"].nunique()`, `age.mean()`. -/
def summaryStats (df : List Row) : Summary :=
  { total := df.length
    uniqueSites := (dedupFirst (df.filterMap Row.site)).length
    uniqueStages :=
      (dedupFirst ((df.filter (fun r => r.stage != some "Unknown")).filterMap Row.stage)).length
    meanAge :=
      let ages := df.filterMap Row.age
      if ages.length = 0 then none else some (ages.sum / (ages.length : ℚ)) }

/-- Everything the page hands to the rendering collaborator after the
empty-result guard. -/
structure Views where
  patientCount : Nat
  demo : List ((String × String) × Nat)
  ages : List ℚ
  siteRank : List (String × Nat)
  siteOptions : List String
  stageView : List (String × Nat)
  summary : Summary
deriving DecidableEq, Repr

/-- One render pass after loading: apply the filters; on an empty result
the page warns and returns (`none`, no aggregation), otherwise it computes
every view.  `siteOptions` is line 145: `["All"] + list(site_counts["Site"].unique())`. -/
def renderPage (df : List Row) (c : Criteria) (selectedSite : String) : Option Views :=
  let f := applyFilters df c
  if f.isEmpty then none
  else some
    { patientCount := f.length
      demo := raceEthnicityBreakdown f
      ages := ageValues f
      siteRank := topSites f
      siteOptions := "All" :: (topSites f).map Prod.fst
      stageView := stageBreakdown f selectedSite
      summary := summaryStats f }

/-! ### Generic lemmas about the list helpers -/

theorem mem_dedupFirst {α : Type} [DecidableEq α] {a : α} {l : List α} :
    a ∈ dedupFirst l ↔ a ∈ l := by
  induction l with
  | nil => simp [dedupFirst]
  | cons x xs ih =>
    by_cases hax : a = x
    · subst hax; simp [dedupFirst]
    · simp [dedupFirst, List.mem_filter, hax, ih]

theorem nodup_dedupFirst {α : Type} [DecidableEq α] (l : List α) :
    (dedupFirst l).Nodup := by
  induction l with
  | nil => simp [dedupFirst]
  | cons x xs ih =>
    refine List.nodup_cons.mpr ⟨?_, ih.filter _⟩
    intro hx
    have := (List.mem_filter.mp hx).2
    simp at this

theorem pairwise_indexOf_dedupFirst {α : Type} [DecidableEq α] (l : List α) :
    (dedupFirst l).Pairwise (fun a b => l.indexOf a < l.indexOf b) := by
  induction l with
  | nil => simp [dedupFirst]
  | cons x xs ih =>
    refine List.pairwise_cons.mpr ⟨?_, ?_⟩
    · intro b hb
      have hbx : b ≠ x := by
        have := (List.mem_filter.mp hb).2
        simpa using this
      rw [List.indexOf_cons_self, List.indexOf_cons_ne _ (Ne.symm hbx)]
      exact Nat.succ_pos _
    · refine List.Pairwise.imp_of_mem ?_ (ih.filter _)
      intro a b ha hb hab
      have hax : a ≠ x := by
        have := (List.mem_filter.mp ha).2
        simpa using this
      have hbx : b ≠ x := by
        have := (List.mem_filter.mp hb).2
        simpa using this
      rw [List.indexOf_cons_ne _ (Ne.symm hax), List.indexOf_cons_ne _ (Ne.symm hbx)]
      exact Nat.succ_lt_succ hab

theorem mem_insertCountDesc {α : Type} {x a : α × Nat} {l : List (α × Nat)} :
    a ∈ insertCountDesc x l ↔ a = x ∨ a ∈ l := by
  induction l with
  | nil => simp [insertCountDesc]
  | cons y ys ih =>
    unfold insertCountDesc
    split
    · simp [List.mem_cons]
    · simp only [List.mem_cons, ih]
      tauto

theorem mem_sortCountDesc {α : Type} {a : α × Nat} {l : List (α × Nat)} :
    a ∈ sortCountDesc l ↔ a ∈ l := by
  induction l with
  | nil => simp [sortCountDesc]
  | cons x xs ih =>
    unfold sortCountDesc
    rw [mem_insertCountDesc]
    simp [ih]

theorem pairwise_insertCountDesc {α : Type} (x : α × Nat) {l : List (α × Nat)}
    (h : l.Pairwise (fun a b => b.2 ≤ a.2)) :
    (insertCountDesc x l).Pairwise (fun a b => b.2 ≤ a.2) := by
  induction l with
  | nil => simp [insertCountDesc]
  | cons y ys ih =>
    unfold insertCountDesc
    have hy := List.pairwise_cons.mp h
    by_cases hyx : y.2 ≤ x.2
    · rw [if_pos hyx]
      refine List.pairwise_cons.mpr ⟨?_, h⟩
      intro z hz
      rcases List.mem_cons.mp hz with hz | hz
      · subst hz; exact hyx
      · exact le_trans (hy.1 z hz) hyx
    · rw [if_neg hyx]
      refine List.pairwise_cons.mpr ⟨?_, ih hy.2⟩
      intro z hz
      rcases mem_insertCountDesc.mp hz with hz | hz
      · subst hz; exact le_of_lt (lt_of_not_le hyx)
      · exact hy.1 z hz

theorem pairwise_sortCountDesc {α : Type} (l : List (α × Nat)) :
    (sortCountDesc l).Pairwise (fun a b => b.2 ≤ a.2) := by
  induction l with
  | nil => simp [sortCountDesc]
  | cons x xs ih => exact pairwise_insertCountDesc x ih

theorem filter_insertCountDesc {α : Type} (c : Nat) (x : α × Nat) (l : List (α × Nat)) :
    (insertCountDesc x l).filter (fun a => decide (a.2 = c)) =
      if x.2 = c then x :: l.filter (fun a => decide (a.2 = c))
      else l.filter (fun a => decide (a.2 = c)) := by
  induction l with
  | nil =>
    by_cases hx : x.2 = c <;> simp [insertCountDesc, hx]
  | cons y ys ih =>
    unfold insertCountDesc
    by_cases hyx : y.2 ≤ x.2
    · rw [if_pos hyx]
      by_cases hx : x.2 = c <;> simp [List.filter_cons, hx]
    · rw [if_neg hyx]
      by_cases hx : x.2 = c
      · have hyc : ¬(y.2 = c) := fun h => hyx (le_of_eq (h.trans hx.symm))
        simp [List.filter_cons, hyc, hx, ih]
      · by_cases hy : y.2 = c <;> simp [List.filter_cons, hy, hx, ih]

theorem filter_sortCountDesc {α : Type} (c : Nat) (l : List (α × Nat)) :
    (sortCountDesc l).filter (fun a => decide (a.2 = c)) =
      l.filter (fun a => decide (a.2 = c)) := by
  induction l with
  | nil => simp [sortCountDesc]
  | cons x xs ih =>
    unfold sortCountDesc
    rw [filter_insertCountDesc]
    by_cases hx : x.2 = c <;> simp [List.filter_cons, hx, ih]

theorem pairwise_of_pairwise_filter {α : Type} {p : α → Bool} {R : α → α → Prop}
    {l : List α} (h : (l.filter p).Pairwise R) :
    l.Pairwise (fun a b => p a = true → p b = true → R a b) := by
  induction l with
  | nil => simp
  | cons x xs ih =>
    rw [List.filter_cons] at h
    by_cases hx : p x = true
    · rw [if_pos hx] at h
      have h1 := List.pairwise_cons.mp h
      refine List.pairwise_cons.mpr ⟨?_, ih h1.2⟩
      intro b hb _ hpb
      exact h1.1 b (List.mem_filter.mpr ⟨hb, hpb⟩)
    · rw [if_neg hx] at h
      refine List.pairwise_cons.mpr ⟨?_, ih h⟩
      intro b _ hpx
      exact absurd hpx hx

theorem charListLt_trans {a b c : List Char} (h1 : charListLt a b = true)
    (h2 : charListLt b c = true) : charListLt a c = true := by
  induction a generalizing b c with
  | nil =>
    cases c with
    | nil =>
      cases b with
      | nil => simp [charListLt] at h1
      | cons y ys => simp [charListLt] at h2
    | cons z zs => simp [charListLt]
  | cons x xs ih =>
    cases b with
    | nil => simp [charListLt] at h1
    | cons y ys =>
      cases c with
      | nil => simp [charListLt] at h2
      | cons z zs =>
        simp only [charListLt] at h1 h2 ⊢
        by_cases hxy : x = y
        · subst hxy
          rw [if_pos rfl] at h1
          by_cases hyz : x = z
          · subst hyz
            rw [if_pos rfl] at h2 ⊢
            exact ih h1 h2
          · rw [if_neg hyz] at h2 ⊢
            exact h2
        · rw [if_neg hxy] at h1
          have hxy2 : x < y := of_decide_eq_true h1
          by_cases hyz : y = z
          · subst hyz
            rw [if_neg hxy]
            exact decide_eq_true hxy2
          · rw [if_neg hyz] at h2
            have hyz2 : y < z := of_decide_eq_true h2
            have hxz2 : x < z := lt_trans hxy2 hyz2
            rw [if_neg (ne_of_lt hxz2)]
            exact decide_eq_true hxz2

theorem charListLt_of_false_of_ne {a b : List Char} (h : charListLt a b = false)
    (hne : a ≠ b) : charListLt b a = true := by
  induction a generalizing b with
  | nil =>
    cases b with
    | nil => exact absurd rfl hne
    | cons y ys => simp [charListLt] at h
  | cons x xs ih =>
    cases b with
    | nil => simp [charListLt]
    | cons y ys =>
      simp only [charListLt] at h ⊢
      by_cases hxy : x = y
      · subst hxy
        rw [if_pos rfl] at h
        rw [if_pos rfl]
        refine ih h ?_
        intro hEq
        exact hne (by rw [hEq])
      · rw [if_neg hxy] at h
        have hnlt : ¬(x < y) := of_decide_eq_false h
        have hyx : y < x := lt_of_le_of_ne (le_of_not_lt hnlt) (Ne.symm hxy)
        rw [if_neg (Ne.symm hxy)]
        exact decide_eq_true hyx

theorem strLt_of_false_of_ne {a b : String} (h : strLt a b = false) (hne : a ≠ b) :
    strLt b a = true := by
  unfold strLt at *
  refine charListLt_of_false_of_ne h ?_
  intro hd
  rcases a with ⟨da⟩
  rcases b with ⟨db⟩
  simp only at hd
  exact hne (by rw [hd])

/-- Propositional form of `pairLt`. -/
def pairLtP (a b : String × String) : Prop :=
  pairLt a b = true

theorem pairLt_iff {a b : String × String} : pairLt a b = true ↔ pairLtP a b :=
  Iff.rfl

theorem pairLtP_unfolded {a b : String × String} :
    pairLtP a b ↔ (strLt a.1 b.1 = true ∨ (a.1 = b.1 ∧ strLt a.2 b.2 = true)) := by
  unfold pairLtP pairLt
  simp [Bool.or_eq_true, Bool.and_eq_true, beq_iff_eq]

theorem pairLtP_trans {a b c : String × String} (h1 : pairLtP a b) (h2 : pairLtP b c) :
    pairLtP a c := by
  rw [pairLtP_unfolded] at *
  rcases h1 with h1 | ⟨h1e, h1s⟩ <;> rcases h2 with h2 | ⟨h2e, h2s⟩
  · exact Or.inl (charListLt_trans h1 h2)
  · exact Or.inl (h2e ▸ h1)
  · exact Or.inl (h1e ▸ h2)
  · exact Or.inr ⟨h1e.trans h2e, charListLt_trans h1s h2s⟩

theorem pairLtP_of_not_of_ne {a b : String × String}
    (h : pairLt a b = false) (hne : a ≠ b) : pairLtP b a := by
  unfold pairLt at h
  rw [Bool.or_eq_false_iff, Bool.and_eq_false_iff] at h
  obtain ⟨h1, h2⟩ := h
  rw [pairLtP_unfolded]
  by_cases he : a.1 = b.1
  · have h2f : strLt a.2 b.2 = false := by
      rcases h2 with h2 | h2
      · exact absurd (beq_iff_eq.mpr he) (by simpa using h2)
      · simpa using h2
    have hs : a.2 ≠ b.2 := by
      intro hs
      exact hne (Prod.ext he hs)
    exact Or.inr ⟨he.symm, strLt_of_false_of_ne h2f hs⟩
  · exact Or.inl (strLt_of_false_of_ne h1 he)

theorem mem_insertPairAsc {x a : String × String} {l : List (String × String)} :
    a ∈ insertPairAsc x l ↔ a = x ∨ a ∈ l := by
  induction l with
  | nil => simp [insertPairAsc]
  | cons y ys ih =>
    unfold insertPairAsc
    split
    · simp [List.mem_cons]
    · simp only [List.mem_cons, ih]
      tauto

theorem mem_sortPairsAsc {a : String × String} {l : List (String × String)} :
    a ∈ sortPairsAsc l ↔ a ∈ l := by
  induction l with
  | nil => simp [sortPairsAsc]
  | cons x xs ih =>
    unfold sortPairsAsc
    rw [mem_insertPairAsc]
    simp [ih]

theorem pairwise_insertPairAsc {x : String × String} {l : List (String × String)}
    (h : l.Pairwise pairLtP) (hx : ∀ y ∈ l, y ≠ x) :
    (insertPairAsc x l).Pairwise pairLtP := by
  induction l with
  | nil => simp [insertPairAsc]
  | cons y ys ih =>
    unfold insertPairAsc
    have hy := List.pairwise_cons.mp h
    by_cases hxy : pairLt x y = true
    · rw [if_pos hxy]
      refine List.pairwise_cons.mpr ⟨?_, h⟩
      intro z hz
      rcases List.mem_cons.mp hz with hz | hz
      · subst hz; exact pairLt_iff.mp hxy
      · exact pairLtP_trans (pairLt_iff.mp hxy) (hy.1 z hz)
    · rw [if_neg hxy]
      refine List.pairwise_cons.mpr ⟨?_, ih hy.2 (fun z hz => hx z (List.mem_cons_of_mem _ hz))⟩
      intro z hz
      rcases mem_insertPairAsc.mp hz with hz | hz
      · subst hz
        exact pairLtP_of_not_of_ne (Bool.eq_false_iff.mpr hxy)
          (Ne.symm (hx y (List.mem_cons_self _ _)))
      · exact hy.1 z hz

theorem pairwise_sortPairsAsc {l : List (String × String)} (h : l.Nodup) :
    (sortPairsAsc l).Pairwise pairLtP := by
  induction l with
  | nil => simp [sortPairsAsc]
  | cons x xs ih =>
    unfold sortPairsAsc
    have hx := List.nodup_cons.mp h
    refine pairwise_insertPairAsc (ih hx.2) ?_
    intro y hy hyx
    exact hx.1 (hyx ▸ mem_sortPairsAsc.mp hy)

/-! ### Filter pipeline lemmas -/

theorem filterByRace_sublist (sel : List String) (df : List Row) :
    (filterByRace sel df).Sublist df := by
  unfold filterByRace
  split
  · exact List.Sublist.refl _
  · exact List.filter_sublist _

theorem filterByEthnicity_sublist (sel : List String) (df : List Row) :
    (filterByEthnicity sel df).Sublist df := by
  unfold filterByEthnicity
  split
  · exact List.Sublist.refl _
  · exact List.filter_sublist _

theorem filterByGender_sublist (sel : List String) (df : List Row) :
    (filterByGender sel df).Sublist df := by
  unfold filterByGender
  split
  · exact List.Sublist.refl _
  · exact List.filter_sublist _

theorem filterByAge_sublist (label : String) (df : List Row) :
    (filterByAge label df).Sublist df := by
  unfold filterByAge
  split
  · exact List.filter_sublist _
  · split
    · exact List.filter_sublist _
    · split
      · exact List.filter_sublist _
      · exact List.Sublist.refl _

theorem applyFilters_sublist (df : List Row) (c : Criteria) :
    (applyFilters df c).Sublist df := by
  unfold applyFilters
  exact (filterByAge_sublist _ _).trans
    ((filterByGender_sublist _ _).trans
      ((filterByEthnicity_sublist _ _).trans (filterByRace_sublist _ _)))

theorem mem_filterByRace {sel : List String} {df : List Row} {r : Row}
    (h : r ∈ filterByRace sel df) (hne : sel ≠ []) : optMem r.race sel = true := by
  unfold filterByRace at h
  rw [if_neg hne] at h
  exact (List.mem_filter.mp h).2

theorem mem_filterByEthnicity {sel : List String} {df : List Row} {r : Row}
    (h : r ∈ filterByEthnicity sel df) (hne : sel ≠ []) : optMem r.ethnicity sel = true := by
  unfold filterByEthnicity at h
  rw [if_neg hne] at h
  exact (List.mem_filter.mp h).2

theorem mem_filterByGender {sel : List String} {df : List Row} {r : Row}
    (h : r ∈ filterByGender sel df) (hne : sel ≠ []) : optMem r.gender sel = true := by
  unfold filterByGender at h
  rw [if_neg hne] at h
  exact (List.mem_filter.mp h).2

/-! ### Sample data: the dataset of the spec's test scenario -/

def rowWH : Row :=
  { race := some "White", ethnicity := some "Hispanic", gender := some "female",
    age := some 40, site := some "Breast", stage := some "I" }

def rowWN : Row :=
  { race := some "White", ethnicity := some "Non-Hispanic", gender := some "female",
    age := some 70, site := some "Breast", stage := some "II" }

def rowBU : Row :=
  { race := some "Black", ethnicity := some "Unknown", gender := some "female",
    age := some 50, site := some "Lung", stage := some "Unknown" }

def sampleDf : List Row := [rowWH, rowWN, rowBU]

def critWhite : Criteria :=
  { races := ["White"], ethnicities := [], genders := [], ageGroup := "All Ages" }

def critAsian : Criteria :=
  { races := ["Asian"], ethnicities := [], genders := [], ageGroup := "All Ages" }

/-! ### Claim theorems -/

/-- C3: when a selected race / ethnicity / gender set is empty, the
corresponding pipeline step keeps every row of its input unchanged — empty
selection means "no restriction", not "exclude everything". -/
theorem emptySelection_isNoRestriction (df : List Row) (sel : List String)
    (h : sel = []) :
    filterByRace sel df = df ∧ filterByEthnicity sel df = df ∧
      filterByGender sel df = df := by
  subst h
  refine ⟨?_, ?_, ?_⟩ <;> simp [filterByRace, filterByEthnicity, filterByGender]

/-- Witness for C3 on the spec's scenario dataset, whose rows include
`"Unknown"` values. -/
theorem emptySelection_isNoRestriction_witness :
    ([] : List String) = [] ∧
      (filterByRace [] sampleDf = sampleDf ∧
        filterByEthnicity [] sampleDf = sampleDf ∧
        filterByGender [] sampleDf = sampleDf) :=
  ⟨rfl, emptySelection_isNoRestriction sampleDf [] rfl⟩

/-- C4: the filtered table is a subsequence of the input in original row
order, and every surviving row's race / ethnicity / gender value belongs to
the corresponding selected set whenever that set is non-empty. -/
theorem filtered_subsequence_and_closure (df : List Row) (c : Criteria) (r : Row)
    (hr : r ∈ applyFilters df c) :
    (applyFilters df c).Sublist df ∧
      (c.races ≠ [] → optMem r.race c.races = true) ∧
      (c.ethnicities ≠ [] → optMem r.ethnicity c.ethnicities = true) ∧
      (c.genders ≠ [] → optMem r.gender c.genders = true) := by
  refine ⟨applyFilters_sublist df c, ?_, ?_, ?_⟩
  all_goals
    unfold applyFilters at hr
    have hg : r ∈ filterByGender c.genders
        (filterByEthnicity c.ethnicities (filterByRace c.races df)) :=
      (filterByAge_sublist _ _).subset hr
    have he : r ∈ filterByEthnicity c.ethnicities (filterByRace c.races df) :=
      (filterByGender_sublist _ _).subset hg
    have hra : r ∈ filterByRace c.races df :=
      (filterByEthnicity_sublist _ _).subset he
  · exact fun hne => mem_filterByRace hra hne
  · exact fun hne => mem_filterByEthnicity he hne
  · exact fun hne => mem_filterByGender hg hne

/-- Witness for C4: the first scenario row survives the race filter and the
theorem's conclusions hold for it concretely. -/
theorem filtered_subsequence_and_closure_witness :
    rowWH ∈ applyFilters sampleDf critWhite ∧
      ((applyFilters sampleDf critWhite).Sublist sampleDf ∧
        (critWhite.races ≠ [] → optMem rowWH.race critWhite.races = true) ∧
        (critWhite.ethnicities ≠ [] → optMem rowWH.ethnicity critWhite.ethnicities = true) ∧
        (critWhite.genders ≠ [] → optMem rowWH.gender critWhite.genders = true)) :=
  ⟨by decide, filtered_subsequence_and_closure sampleDf critWhite rowWH (by decide)⟩

/-- C5: the age-group step applies exactly the three bracket predicates
(Young is age ≤ 45, Adult is 45 < age ≤ 65, Senior is age > 65, and the
"All Ages" label applies none); a missing age satisfies no bracket, and on
any non-missing age the three brackets are pairwise disjoint and jointly
exhaustive. -/
theorem ageBrackets_partition (df : List Row) (a : ℚ) :
    filterByAge "All Ages" df = df ∧
    filterByAge "Young (0-45)" df = df.filter (fun r => youngAge r.age) ∧
    filterByAge "Adult (45-65)" df = df.filter (fun r => adultAge r.age) ∧
    filterByAge "Senior (65+)" df = df.filter (fun r => seniorAge r.age) ∧
    youngAge none = false ∧ adultAge none = false ∧ seniorAge none = false ∧
    youngAge (some a) = decide (a ≤ 45) ∧
    adultAge (some a) = (decide (45 < a) && decide (a ≤ 65)) ∧
    seniorAge (some a) = decide (65 < a) ∧
    (youngAge (some a) || (adultAge (some a) || seniorAge (some a))) = true ∧
    (youngAge (some a) && adultAge (some a)) = false ∧
    (youngAge (some a) && seniorAge (some a)) = false ∧
    (adultAge (some a) && seniorAge (some a)) = false := by
  have hAllY : containsSubstr "All Ages" "Young" = false := by decide
  have hAllA : containsSubstr "All Ages" "Adult" = false := by decide
  have hAllS : containsSubstr "All Ages" "Senior" = false := by decide
  have hY : containsSubstr "Young (0-45)" "Young" = true := by decide
  have hAY : containsSubstr "Adult (45-65)" "Young" = false := by decide
  have hA : containsSubstr "Adult (45-65)" "Adult" = true := by decide
  have hSY : containsSubstr "Senior (65+)" "Young" = false := by decide
  have hSA : containsSubstr "Senior (65+)" "Adult" = false := by decide
  have hS : containsSubstr "Senior (65+)" "Senior" = true := by decide
  refine ⟨?_, ?_, ?_, ?_, rfl, rfl, rfl, rfl, rfl, rfl, ?_, ?_, ?_, ?_⟩
  · unfold filterByAge
    rw [hAllY, hAllA, hAllS]
    simp
  · unfold filterByAge
    rw [hY]
    simp
  · unfold filterByAge
    rw [hAY, hA]
    simp
  · unfold filterByAge
    rw [hSY, hSA, hS]
    simp
  all_goals simp only [youngAge, adultAge, seniorAge]
  · rcases le_or_lt a 45 with h1 | h1
    · simp [h1]
    · rcases le_or_lt a 65 with h2 | h2
      · simp [h1, h2]
      · simp [h2]
  · rcases le_or_lt a 45 with h1 | h1
    · simp [not_lt.mpr h1]
    · simp [not_le.mpr h1]
  · rcases le_or_lt a 45 with h1 | h1
    · simp [not_lt.mpr (le_trans h1 (by norm_num : (45 : ℚ) ≤ 65))]
    · simp [not_le.mpr h1]
  · rcases le_or_lt a 65 with h2 | h2
    · simp [not_lt.mpr h2]
    · simp [not_le.mpr h2]

/-- Witness for C5 at the concrete age 50 on the scenario dataset. -/
theorem ageBrackets_partition_witness :
    filterByAge "All Ages" sampleDf = sampleDf ∧
    filterByAge "Young (0-45)" sampleDf = sampleDf.filter (fun r => youngAge r.age) ∧
    filterByAge "Adult (45-65)" sampleDf = sampleDf.filter (fun r => adultAge r.age) ∧
    filterByAge "Senior (65+)" sampleDf = sampleDf.filter (fun r => seniorAge r.age) ∧
    youngAge none = false ∧ adultAge none = false ∧ seniorAge none = false ∧
    youngAge (some 50) = decide ((50 : ℚ) ≤ 45) ∧
    adultAge (some 50) = (decide ((45 : ℚ) < 50) && decide ((50 : ℚ) ≤ 65)) ∧
    seniorAge (some 50) = decide ((65 : ℚ) < 50) ∧
    (youngAge (some 50) || (adultAge (some 50) || seniorAge (some 50))) = true ∧
    (youngAge (some 50) && adultAge (some 50)) = false ∧
    (youngAge (some 50) && seniorAge (some 50)) = false ∧
    (adultAge (some 50) && seniorAge (some 50)) = false :=
  ageBrackets_partition sampleDf 50

/-- C7: when the filters leave no rows, the page signals the empty state
(`none`: the warning message path) and computes no aggregate view at all;
no error is raised, since `renderPage` is total. -/
theorem emptyFiltered_skips_aggregation (df : List Row) (c : Criteria)
    (selectedSite : String) (h : applyFilters df c = []) :
    renderPage df c selectedSite = none := by
  unfold renderPage
  simp [h]

/-- Witness for C7: the spec's scenario filter `race = {"Asian"}` empties
the scenario dataset. -/
theorem emptyFiltered_skips_aggregation_witness :
    applyFilters sampleDf critAsian = [] ∧
      renderPage sampleDf critAsian "All" = none :=
  ⟨by decide, emptyFiltered_skips_aggregation sampleDf critAsian "All" (by decide)⟩

/-- C9: with the dataset and the filter criteria fixed, the selected site
influences only the stage-breakdown view: every other component of the
rendered output (patient counter, race/ethnicity table, histogram input,
site ranking, site options, summary scalars) is identical for any two
site selections. -/
theorem siteSelection_only_affects_stageView (df : List Row) (c : Criteria)
    (s1 s2 : String) :
    (renderPage df c s1).map
        (fun v => (v.patientCount, v.demo, v.ages, v.siteRank, v.siteOptions, v.summary)) =
      (renderPage df c s2).map
        (fun v => (v.patientCount, v.demo, v.ages, v.siteRank, v.siteOptions, v.summary)) := by
  unfold renderPage
  by_cases h : (applyFilters df c).isEmpty = true <;> simp [h]

/-- C6: `topSites` never lists the sentinel `"Unknown"`, returns at most 10
rows, sorts them by non-increasing count, and breaks count ties by the
first occurrence of the site among the input's non-missing site values. -/
theorem topSites_spec (df : List Row) :
    (∀ p ∈ topSites df, p.1 ≠ "Unknown") ∧
    (topSites df).length ≤ 10 ∧
    (topSites df).Pairwise (fun a b => b.2 ≤ a.2) ∧
    (topSites df).Pairwise (fun a b => a.2 = b.2 →
      ((df.map Row.site).filterMap id).indexOf a.1 <
        ((df.map Row.site).filterMap id).indexOf b.1) := by
  have hsub1 : (topSites df).Sublist
      ((valueCounts (df.map Row.site)).filter (fun p => decide (p.1 ≠ "Unknown"))) :=
    List.take_sublist _ _
  have hcounts : valueCounts (df.map Row.site) =
      sortCountDesc ((dedupFirst ((df.map Row.site).filterMap id)).map
        (fun k => (k, ((df.map Row.site).filterMap id).count k))) := rfl
  refine ⟨?_, ?_, ?_, ?_⟩
  · intro p hp
    have hp2 := hsub1.subset hp
    exact of_decide_eq_true (List.mem_filter.mp hp2).2
  · have : (topSites df).length =
        (((valueCounts (df.map Row.site)).filter
          (fun p => decide (p.1 ≠ "Unknown"))).take 10).length := rfl
    rw [this, List.length_take]
    exact min_le_left _ _
  · refine List.Pairwise.sublist hsub1 ?_
    refine List.Pairwise.filter _ ?_
    rw [hcounts]
    exact pairwise_sortCountDesc _
  · rw [List.pairwise_iff_forall_sublist]
    intro a b hab hcount
    have hab2 : ([a, b]).Sublist (valueCounts (df.map Row.site)) :=
      hab.trans (hsub1.trans (List.filter_sublist _))
    have hKeys : ((dedupFirst ((df.map Row.site).filterMap id)).map
        (fun k => (k, ((df.map Row.site).filterMap id).count k))).Pairwise
        (fun x y => ((df.map Row.site).filterMap id).indexOf x.1 <
          ((df.map Row.site).filterMap id).indexOf y.1) := by
      rw [List.pairwise_map]
      exact pairwise_indexOf_dedupFirst _
    have hfc : ((valueCounts (df.map Row.site)).filter
        (fun x => decide (x.2 = a.2))).Pairwise
        (fun x y => ((df.map Row.site).filterMap id).indexOf x.1 <
          ((df.map Row.site).filterMap id).indexOf y.1) := by
      rw [hcounts, filter_sortCountDesc]
      exact hKeys.filter _
    have hrefl := pairwise_of_pairwise_filter hfc
    have hres := List.pairwise_iff_forall_sublist.mp hrefl hab2
    exact hres (by simp) (by simp [hcount.symm])

/-- Witness for C6: the theorem evaluated on the spec's scenario dataset. -/
theorem topSites_spec_witness :
    (∀ p ∈ topSites sampleDf, p.1 ≠ "Unknown") ∧
    (topSites sampleDf).length ≤ 10 ∧
    (topSites sampleDf).Pairwise (fun a b => b.2 ≤ a.2) ∧
    (topSites sampleDf).Pairwise (fun a b => a.2 = b.2 →
      ((sampleDf.map Row.site).filterMap id).indexOf a.1 <
        ((sampleDf.map Row.site).filterMap id).indexOf b.1) :=
  topSites_spec sampleDf

/-- Every key reported by `valueCounts` occurs among the non-missing input
values. -/
theorem mem_valueCounts {xs : List (Option String)} {p : String × Nat}
    (h : p ∈ valueCounts xs) : p.1 ∈ xs.filterMap id := by
  unfold valueCounts at h
  have h2 := mem_sortCountDesc.mp h
  obtain ⟨k, hk, hkp⟩ := List.mem_map.mp h2
  rw [← hkp]
  exact mem_dedupFirst.mp hk

/-- C8: the stage view restricts to the exact selected site first ("All"
restricts nothing), counts no `"Unknown"` stage, and yields the empty
table — the informational-placeholder state, not an error, since
`stageBreakdown` is total — whenever the restricted input is empty or
every remaining row has stage `"Unknown"`. -/
theorem stageBreakdown_spec (df : List Row) (selectedSite : String) :
    siteRestrict df "All" = df ∧
    (selectedSite ≠ "All" →
      ∀ r ∈ siteRestrict df selectedSite, r.site = some selectedSite) ∧
    (∀ p ∈ stageBreakdown df selectedSite, p.1 ≠ "Unknown") ∧
    (siteRestrict df selectedSite = [] → stageBreakdown df selectedSite = []) ∧
    ((∀ r ∈ siteRestrict df selectedSite, r.stage = some "Unknown") →
      stageBreakdown df selectedSite = []) := by
  refine ⟨?_, ?_, ?_, ?_, ?_⟩
  · simp [siteRestrict]
  · intro hne r hr
    unfold siteRestrict at hr
    rw [if_pos hne] at hr
    have := (List.mem_filter.mp hr).2
    exact beq_iff_eq.mp this
  · intro p hp
    exact of_decide_eq_true (List.mem_filter.mp hp).2
  · intro h
    unfold stageBreakdown
    rw [h]
    rfl
  · intro h
    unfold stageBreakdown
    rw [List.filter_eq_nil_iff]
    intro p hp
    have hkey := mem_valueCounts hp
    obtain ⟨o, ho, hop⟩ := List.mem_filterMap.mp hkey
    obtain ⟨r, hr, hro⟩ := List.mem_map.mp ho
    have : r.stage = some "Unknown" := h r hr
    have hpu : p.1 = "Unknown" := by
      rw [this] at hro
      rw [← hro] at hop
      exact (Option.some_inj.mp hop).symm
    simp [hpu]

/-- Witness for C8: the theorem evaluated at the scenario dataset and the
site `"Lung"` (whose only row has stage `"Unknown"`). -/
theorem stageBreakdown_spec_witness :
    siteRestrict sampleDf "All" = sampleDf ∧
    ("Lung" ≠ "All" →
      ∀ r ∈ siteRestrict sampleDf "Lung", r.site = some "Lung") ∧
    (∀ p ∈ stageBreakdown sampleDf "Lung", p.1 ≠ "Unknown") ∧
    (siteRestrict sampleDf "Lung" = [] → stageBreakdown sampleDf "Lung" = []) ∧
    ((∀ r ∈ siteRestrict sampleDf "Lung", r.stage = some "Unknown") →
      stageBreakdown sampleDf "Lung" = []) :=
  stageBreakdown_spec sampleDf "Lung"

/-- C10: on a non-empty filtered table, every option the site selector
offers — `"All"` plus each site named in the top-10 ranking — restricts to
a non-empty subset, so the "No data for selected site" branch cannot be
reached from the offered options. -/
theorem siteOptions_restrict_nonempty (df : List Row) (c : Criteria)
    (h : applyFilters df c ≠ []) (s : String)
    (hs : s ∈ "All" :: (topSites (applyFilters df c)).map Prod.fst) :
    siteRestrict (applyFilters df c) s ≠ [] := by
  by_cases hall : s = "All"
  · subst hall
    have : siteRestrict (applyFilters df c) "All" = applyFilters df c := by
      simp [siteRestrict]
    rw [this]
    exact h
  · rcases List.mem_cons.mp hs with hs1 | hs2
    · exact absurd hs1 hall
    · obtain ⟨p, hp, hps⟩ := List.mem_map.mp hs2
      have hp2 : p ∈ valueCounts ((applyFilters df c).map Row.site) :=
        (List.filter_sublist _).subset ((List.take_sublist _ _).subset hp)
      have hkey := mem_valueCounts hp2
      obtain ⟨o, ho, hop⟩ := List.mem_filterMap.mp hkey
      obtain ⟨r, hr, hro⟩ := List.mem_map.mp ho
      have hrs : r.site = some s := by
        rw [hro, ← hps]
        exact hop
      unfold siteRestrict
      rw [if_pos hall]
      apply List.ne_nil_of_mem (a := r)
      exact List.mem_filter.mpr ⟨hr, by simp [hrs]⟩

/-- Witness for C10 at the scenario dataset filtered to `race = {"White"}`,
choosing the offered site `"Breast"`. -/
theorem siteOptions_restrict_nonempty_witness :
    applyFilters sampleDf critWhite ≠ [] ∧
    "Breast" ∈ "All" :: (topSites (applyFilters sampleDf critWhite)).map Prod.fst ∧
    siteRestrict (applyFilters sampleDf critWhite) "Breast" ≠ [] :=
  ⟨by decide, by decide,
    siteOptions_restrict_nonempty sampleDf critWhite (by decide) "Breast" (by decide)⟩

/-! ### C1: the Unique Sites scalar -/

/-- Restricting rows by `stage != "Unknown"` and then dropping missing
stages is the same as dropping missing stages and then removing
`"Unknown"`. -/
theorem stage_filter_comm (df : List Row) :
    (df.filter (fun r => r.stage != some "Unknown")).filterMap Row.stage =
      (df.filterMap Row.stage).filter (fun x => decide (x ≠ "Unknown")) := by
  induction df with
  | nil => rfl
  | cons r rs ih =>
    cases hstage : r.stage with
    | none => simp [List.filter_cons, List.filterMap_cons, hstage, ih]
    | some v =>
      by_cases hv : v = "Unknown"
      · subst hv
        simp [List.filter_cons, List.filterMap_cons, hstage, ih]
      · simp [List.filter_cons, List.filterMap_cons, hstage, hv, ih]

/-- `dedupFirst` and Mathlib's `dedup` agree on the number of distinct
values. -/
theorem length_dedupFirst_eq {α : Type} [DecidableEq α] (l : List α) :
    (dedupFirst l).length = l.dedup.length := by
  have hperm : (dedupFirst l).Perm l.dedup := by
    refine (List.perm_ext_iff_of_nodup (nodup_dedupFirst l) l.nodup_dedup).mpr ?_
    intro a
    rw [mem_dedupFirst, List.mem_dedup]
  exact hperm.length_eq

/-- Modelled from the spec: "the number of distinct site values among rows
whose site is not \x22Unknown\x22". -/
def specUniqueSiteCount (df : List Row) : Nat :=
  ((df.filterMap Row.site).filter (fun x => decide (x ≠ "Unknown"))).dedup.length

/-- Modelled from the spec: the distinct non-"Unknown" stage count. -/
def specUniqueStageCount (df : List Row) : Nat :=
  ((df.filterMap Row.stage).filter (fun x => decide (x ≠ "Unknown"))).dedup.length

def rowUS : Row :=
  { race := some "White", ethnicity := some "Hispanic", gender := some "female",
    age := some 30, site := some "Unknown", stage := some "I" }

/-- A table whose sites are `"Breast"` and the sentinel `"Unknown"`. -/
def dfC1 : List Row := [rowWH, rowUS]

/-- C1 counterexample: `unique_sites = filtered_df["site"].nunique()`
(line 185) counts the sentinel `"Unknown"` as a site, so the reported
scalar is 2 while the claimed non-"Unknown" distinct count is 1. -/
theorem summary_uniqueSites_counterexample :
    (summaryStats dfC1).uniqueSites = 2 ∧ specUniqueSiteCount dfC1 = 1 ∧
      (summaryStats dfC1).uniqueSites ≠ specUniqueSiteCount dfC1 := by
  refine ⟨by decide, by decide, by decide⟩

/-- C1 amended: the Unique Sites scalar counts all distinct non-missing
site values, `"Unknown"` included; the Stages Represented scalar does
exclude `"Unknown"` as claimed, and the total is the row count. -/
theorem summaryStats_distinct_counts (df : List Row) :
    (summaryStats df).total = df.length ∧
    (summaryStats df).uniqueSites = (df.filterMap Row.site).dedup.length ∧
    (summaryStats df).uniqueStages = specUniqueStageCount df := by
  refine ⟨rfl, length_dedupFirst_eq _, ?_⟩
  show (dedupFirst ((df.filter (fun r => r.stage != some "Unknown")).filterMap Row.stage)).length = _
  rw [stage_filter_comm]
  exact length_dedupFirst_eq _

/-! ### C2: race-ethnicity breakdown ordering -/

/-- A table with two tied groups whose encounter order (White first) is the
reverse of the lexicographic key order (Black first). -/
def dfC2 : List Row := [rowWH, rowBU]

/-- C2 counterexample: with both groups at count 1, the breakdown lists the
`("Black", "Unknown")` key first because `groupby` emits keys in ascending
lexicographic order before the count sort, while the encounter order of the
grouping keys in the table has `("White", "Hispanic")` first; the claimed
encounter-order tie-breaking would demand the reverse output. -/
theorem raceEthnicityBreakdown_counterexample :
    raceEthPairs dfC2 =
      [(("White" : String), ("Hispanic" : String)),
        (("Black" : String), ("Unknown" : String))] ∧
    raceEthnicityBreakdown dfC2 =
      [((("Black" : String), ("Unknown" : String)), 1),
        ((("White" : String), ("Hispanic" : String)), 1)] ∧
    raceEthnicityBreakdown dfC2 ≠
      [((("White" : String), ("Hispanic" : String)), 1),
        ((("Black" : String), ("Unknown" : String)), 1)] := by
  refine ⟨by decide, by decide, by decide⟩

/-- C2 amended: the breakdown returns at most 10 `(race, ethnicity, count)`
groups with correct counts, ordered by count descending (modelling the
pandas sort as stable); ties between equal counts follow the ascending
lexicographic order of the grouping key — the order `groupby` emits — not
the key's encounter order in the filtered table. -/
theorem raceEthnicityBreakdown_spec (df : List Row) :
    (raceEthnicityBreakdown df).length ≤ 10 ∧
    (∀ p ∈ raceEthnicityBreakdown df,
      p.1 ∈ raceEthPairs df ∧ p.2 = (raceEthPairs df).count p.1) ∧
    (raceEthnicityBreakdown df).Pairwise (fun a b => b.2 ≤ a.2) ∧
    (raceEthnicityBreakdown df).Pairwise (fun a b => a.2 = b.2 → pairLtP a.1 b.1) := by
  have hcounts : raceEthnicityBreakdown df =
      (sortCountDesc ((sortPairsAsc (dedupFirst (raceEthPairs df))).map
        (fun k => (k, (raceEthPairs df).count k)))).take 10 := rfl
  refine ⟨?_, ?_, ?_, ?_⟩
  · rw [hcounts, List.length_take]
    exact min_le_left _ _
  · intro p hp
    have hp2 := (List.take_sublist _ _).subset (hcounts ▸ hp)
    have hp3 := mem_sortCountDesc.mp hp2
    obtain ⟨k, hk, hkp⟩ := List.mem_map.mp hp3
    have hkv : k ∈ raceEthPairs df :=
      mem_dedupFirst.mp (mem_sortPairsAsc.mp hk)
    rw [← hkp]
    exact ⟨hkv, rfl⟩
  · rw [hcounts]
    exact List.Pairwise.sublist (List.take_sublist _ _) (pairwise_sortCountDesc _)
  · rw [List.pairwise_iff_forall_sublist]
    intro a b hab hcount
    have hab2 : ([a, b]).Sublist
        (sortCountDesc ((sortPairsAsc (dedupFirst (raceEthPairs df))).map
          (fun k => (k, (raceEthPairs df).count k)))) :=
      (hcounts ▸ hab).trans (List.take_sublist _ _)
    have hKeys : ((sortPairsAsc (dedupFirst (raceEthPairs df))).map
        (fun k => (k, (raceEthPairs df).count k))).Pairwise
        (fun x y => pairLtP x.1 y.1) := by
      rw [List.pairwise_map]
      exact pairwise_sortPairsAsc (nodup_dedupFirst _)
    have hfc : ((sortCountDesc ((sortPairsAsc (dedupFirst (raceEthPairs df))).map
        (fun k => (k, (raceEthPairs df).count k)))).filter
        (fun x => decide (x.2 = a.2))).Pairwise (fun x y => pairLtP x.1 y.1) := by
      rw [filter_sortCountDesc]
      exact hKeys.filter _
    have hrefl := pairwise_of_pairwise_filter hfc
    have hres := List.pairwise_iff_forall_sublist.mp hrefl hab2
    exact hres (by simp) (by simp [hcount.symm])

/-- Witness for the amended C2 on the tied two-group table. -/
theorem raceEthnicityBreakdown_spec_witness :
    (raceEthnicityBreakdown dfC2).length ≤ 10 ∧
    (∀ p ∈ raceEthnicityBreakdown dfC2,
      p.1 ∈ raceEthPairs dfC2 ∧ p.2 = (raceEthPairs dfC2).count p.1) ∧
    (raceEthnicityBreakdown dfC2).Pairwise (fun a b => b.2 ≤ a.2) ∧
    (raceEthnicityBreakdown dfC2).Pairwise (fun a b => a.2 = b.2 → pairLtP a.1 b.1) :=
  raceEthnicityBreakdown_spec dfC2
